import Mathlib

/-!
Verification of the study-import pipeline (`voice_db/import_studies.py`).

The development embeds the decoded JSON data model, the fixed study schema
(`study_schema`, lines 7-141 of the source), the three duplicate-detection
policies, and the per-file import loop of `import_json_studies` (lines
144-298) as executable Lean definitions, and proves the specified
properties about them.  Directory traversal, interactive prompts and
console printing are out of scope: a run is modelled as acting on the list
of discovered `.json` files in traversal order, each file being either
unopenable, undecodable, or a decoded JSON value.
-/

/-- A decoded JSON value, as produced by `json.load`.  Numbers are modelled
as integers: every numeric literal appearing in the program's decision
logic (year values, result metrics, dataset sizes) is compared only for
type membership, never arithmetically, so the integer sub-universe is
sufficient and keeps every definition computable. -/
inductive Json where
  | null
  | bool (b : Bool)
  | num (n : Int)
  | str (s : String)
  | arr (elems : List Json)
  | obj (members : List (String × Json))
deriving Repr, Inhabited

mutual

/-- Structural equality of JSON values (Python `==` on decoded values). -/
def Json.beq : Json → Json → Bool
  | .null, .null => true
  | .bool a, .bool b => a == b
  | .num a, .num b => a == b
  | .str a, .str b => a == b
  | .arr xs, .arr ys => beqElems xs ys
  | .obj xs, .obj ys => beqMembers xs ys
  | _, _ => false

/-- Elementwise equality of JSON arrays. -/
def beqElems : List Json → List Json → Bool
  | [], [] => true
  | x :: xs, y :: ys => Json.beq x y && beqElems xs ys
  | _, _ => false

/-- Memberwise equality of JSON objects. -/
def beqMembers : List (String × Json) → List (String × Json) → Bool
  | [], [] => true
  | (k1, v1) :: xs, (k2, v2) :: ys => k1 == k2 && Json.beq v1 v2 && beqMembers xs ys
  | _, _ => false

end

instance : BEq Json := ⟨Json.beq⟩

mutual

theorem Json.beq_iff : ∀ a b : Json, Json.beq a b = true ↔ a = b
  | .null, .null => by simp [Json.beq]
  | .bool _, .bool _ => by simp [Json.beq]
  | .num _, .num _ => by simp [Json.beq]
  | .str _, .str _ => by simp [Json.beq]
  | .arr xs, .arr ys => by simp [Json.beq, beqElems_iff xs ys]
  | .obj xs, .obj ys => by simp [Json.beq, beqMembers_iff xs ys]
  | .null, .bool _ => by simp [Json.beq]
  | .null, .num _ => by simp [Json.beq]
  | .null, .str _ => by simp [Json.beq]
  | .null, .arr _ => by simp [Json.beq]
  | .null, .obj _ => by simp [Json.beq]
  | .bool _, .null => by simp [Json.beq]
  | .bool _, .num _ => by simp [Json.beq]
  | .bool _, .str _ => by simp [Json.beq]
  | .bool _, .arr _ => by simp [Json.beq]
  | .bool _, .obj _ => by simp [Json.beq]
  | .num _, .null => by simp [Json.beq]
  | .num _, .bool _ => by simp [Json.beq]
  | .num _, .str _ => by simp [Json.beq]
  | .num _, .arr _ => by simp [Json.beq]
  | .num _, .obj _ => by simp [Json.beq]
  | .str _, .null => by simp [Json.beq]
  | .str _, .bool _ => by simp [Json.beq]
  | .str _, .num _ => by simp [Json.beq]
  | .str _, .arr _ => by simp [Json.beq]
  | .str _, .obj _ => by simp [Json.beq]
  | .arr _, .null => by simp [Json.beq]
  | .arr _, .bool _ => by simp [Json.beq]
  | .arr _, .num _ => by simp [Json.beq]
  | .arr _, .str _ => by simp [Json.beq]
  | .arr _, .obj _ => by simp [Json.beq]
  | .obj _, .null => by simp [Json.beq]
  | .obj _, .bool _ => by simp [Json.beq]
  | .obj _, .num _ => by simp [Json.beq]
  | .obj _, .str _ => by simp [Json.beq]
  | .obj _, .arr _ => by simp [Json.beq]

theorem beqElems_iff : ∀ xs ys : List Json, beqElems xs ys = true ↔ xs = ys
  | [], [] => by simp [beqElems]
  | [], _ :: _ => by simp [beqElems]
  | _ :: _, [] => by simp [beqElems]
  | x :: xs, y :: ys => by
      simp [beqElems, Json.beq_iff x y, beqElems_iff xs ys]

theorem beqMembers_iff : ∀ xs ys : List (String × Json), beqMembers xs ys = true ↔ xs = ys
  | [], [] => by simp [beqMembers]
  | [], _ :: _ => by simp [beqMembers]
  | _ :: _, [] => by simp [beqMembers]
  | (_, v1) :: xs, (_, v2) :: ys => by
      simp [beqMembers, Json.beq_iff v1 v2, beqMembers_iff xs ys, and_assoc]

end

instance : DecidableEq Json := fun a b => decidable_of_iff _ (Json.beq_iff a b)

instance : LawfulBEq Json where
  eq_of_beq h := (Json.beq_iff _ _).mp h
  rfl := (Json.beq_iff _ _).mpr rfl

/-- Key lookup in an object member list (Python `dict` indexing; `json.load`
produces unique keys, so first-match lookup coincides with dict lookup). -/
def getKey : List (String × Json) → String → Option Json
  | [], _ => none
  | kv :: rest, k => if kv.1 = k then some kv.2 else getKey rest k

/-- `data.get k`: the value of key `k` when the value is an object carrying
that key (`k in data` / `data[k]` / `data.get(k)` in the source). -/
def Json.get : Json → String → Option Json
  | .obj kvs, k => getKey kvs k
  | _, _ => none

/-- Whether a decoded value is an object (a Python `dict`). -/
def Json.isObj : Json → Bool
  | .obj _ => true
  | _ => false

/-- Replace the value stored under an existing key of a member list. -/
def setKey : List (String × Json) → String → Json → List (String × Json)
  | [], _, _ => []
  | kv :: rest, k, v =>
      if kv.1 = k then (k, v) :: setKey rest k v else kv :: setKey rest k v

/-- `data` with the value under key `k` replaced by `v` (when `data` is an
object that carries `k`; otherwise unchanged). -/
def Json.setField : Json → String → Json → Json
  | .obj kvs, k, v => .obj (setKey kvs k v)
  | j, _, _ => j

/-- Python truthiness of a decoded JSON value (`if data["doi"]:`):
`None`, `False`, zero, and empty strings/lists/dicts are falsy. -/
def jsonTruthy : Json → Bool
  | .null => false
  | .bool b => b
  | .num n => n != 0
  | .str s => !s.isEmpty
  | .arr xs => !xs.isEmpty
  | .obj kvs => !kvs.isEmpty

/-- Schema type `string`. -/
def isString : Json → Bool
  | .str _ => true
  | _ => false

/-- Schema type `["string", "null"]`. -/
def isStringOrNull : Json → Bool
  | .str _ => true
  | .null => true
  | _ => false

/-- Schema type `["integer", "null"]`.  `jsonschema` excludes booleans from
the numeric types. -/
def isIntOrNull : Json → Bool
  | .num _ => true
  | .null => true
  | _ => false

/-- Schema type `["integer", "string"]` (the `year` field). -/
def isIntOrString : Json → Bool
  | .num _ => true
  | .str _ => true
  | _ => false

/-- Schema type `["integer", "string", "null"]` (dataset `size`). -/
def isIntOrStringOrNull : Json → Bool
  | .num _ => true
  | .str _ => true
  | .null => true
  | _ => false

/-- Schema type `["number", "string", "null"]`: the only value kinds the
`results` map admits.  Booleans, arrays and objects are excluded. -/
def isScalarResult : Json → Bool
  | .num _ => true
  | .str _ => true
  | .null => true
  | _ => false

/-- Schema `{"type": "array", "items": s}`: an array whose every element
satisfies the item schema. -/
def isArrayOf (p : Json → Bool) : Json → Bool
  | .arr xs => xs.all p
  | _ => false

/-- A property constraint of a `jsonschema` object schema: it restricts the
value only when the key is present (presence itself is governed by
`required`). -/
def checkOpt (j : Json) (k : String) (p : Json → Bool) : Bool :=
  match j.get k with
  | some v => p v
  | none => true

/-- The `affiliations` item schema: an object with required, string-typed
`institution` and `country`. -/
def checkAffiliation (a : Json) : Bool :=
  a.isObj
  && (a.get "institution").isSome && (a.get "country").isSome
  && checkOpt a "institution" isString && checkOpt a "country" isString

/-- The `authors` item schema: an object with a required string `name` and
an optional array of affiliations. -/
def checkAuthor (a : Json) : Bool :=
  a.isObj
  && (a.get "name").isSome
  && checkOpt a "name" isString
  && checkOpt a "affiliations" (isArrayOf checkAffiliation)

/-- The `source_dataset`/`target_dataset` item schema: required string
`name`, optional typed `size`, `pd_patients`, `controls`, `url`, `doi`. -/
def checkDatasetEntry (d : Json) : Bool :=
  d.isObj
  && (d.get "name").isSome
  && checkOpt d "name" isString
  && checkOpt d "size" isIntOrStringOrNull
  && checkOpt d "pd_patients" isIntOrNull
  && checkOpt d "controls" isIntOrNull
  && checkOpt d "url" isStringOrNull
  && checkOpt d "doi" isStringOrNull

/-- The `feature_selection` schema: `oneOf [null, {methods: [string], combination?: string}]`
(the two alternatives are disjoint, so `oneOf` is an ordinary disjunction). -/
def checkFeatureSelection (v : Json) : Bool :=
  match v with
  | .null => true
  | .obj _ =>
      (v.get "methods").isSome
      && checkOpt v "methods" (isArrayOf isString)
      && checkOpt v "combination" isString
  | _ => false

/-- The `results` schema: an object whose every value — any key is allowed
by `patternProperties: ".*"` — is a number, string or null.  With the
universal pattern, `additionalProperties: false` excludes nothing. -/
def checkResults (v : Json) : Bool :=
  match v with
  | .obj kvs => kvs.all (fun kv => isScalarResult kv.2)
  | _ => false

/-- The `ml_approaches` item schema: required `algorithm` and `results`,
plus typed optional preprocessing facets. -/
def checkApproach (a : Json) : Bool :=
  a.isObj
  && (a.get "algorithm").isSome && (a.get "results").isSome
  && checkOpt a "algorithm" isString
  && checkOpt a "framework" isStringOrNull
  && checkOpt a "feature_extraction" (isArrayOf isString)
  && checkOpt a "feature_selection" checkFeatureSelection
  && checkOpt a "missing_value_handling" (isArrayOf isString)
  && checkOpt a "outlier_handling" (isArrayOf isString)
  && checkOpt a "imbalance_handling" (isArrayOf isString)
  && checkOpt a "scaling" (isArrayOf isString)
  && checkOpt a "dimensionality_reduction" (isArrayOf isString)
  && checkOpt a "sample_selection" (isArrayOf isString)
  && checkOpt a "input_speech" isString
  && checkOpt a "validation" isStringOrNull
  && checkOpt a "results" checkResults

/-- `validate(instance=data, schema=study_schema)`, specialised to the fixed
`study_schema` constant: a top-level object, the eight required keys
present, and every declared property well-typed when present.
`additionalProperties: true` leaves undeclared keys unconstrained.
Returns `true` exactly when `jsonschema` raises no `ValidationError`. -/
def validateStudy (j : Json) : Bool :=
  j.isObj
  && (j.get "study_id").isSome
  && (j.get "title").isSome
  && (j.get "authors").isSome
  && (j.get "publication_type").isSome
  && (j.get "journal").isSome
  && (j.get "year").isSome
  && (j.get "doi").isSome
  && (j.get "ml_approaches").isSome
  && checkOpt j "study_id" isString
  && checkOpt j "title" isString
  && checkOpt j "authors" (isArrayOf checkAuthor)
  && checkOpt j "ml_problem_type" (isArrayOf isString)
  && checkOpt j "problem" isString
  && checkOpt j "publication_type" isString
  && checkOpt j "journal" isString
  && checkOpt j "year" isIntOrString
  && checkOpt j "doi" isString
  && checkOpt j "abstract" isString
  && checkOpt j "source_dataset" (isArrayOf checkDatasetEntry)
  && checkOpt j "target_dataset" (isArrayOf checkDatasetEntry)
  && checkOpt j "ml_approaches" (isArrayOf checkApproach)

/-- The duplicate-detection mode chosen by the interactive menu:
choice 1 sets `skip_duplicate_check = True` (disabled), choice 2 sets it to
`False` (enhanced), any other choice sets it to `"basic"`. -/
inductive DupMode where
  | disabled
  | enhanced
  | basic
deriving Repr, DecidableEq

/-- The dataset clause of an enhanced query: `{"$in": names}` when the
candidate yielded dataset names, `{"$exists": True}` otherwise. -/
inductive DatasetCond where
  | inNames (names : List Json)
  | existsName
deriving Repr, DecidableEq

/-- The filter shapes the duplicate-check block constructs: a single-field
equality (the shape the unreachable basic branch at lines 206-214 would
build), or a field equality joined with a `dataset.name` clause (the
enhanced branch, the only one that ever reaches `find_one`). -/
inductive DupQuery where
  | eqField (field : String) (v : Json)
  | eqFieldAndDataset (field : String) (v : Json) (c : DatasetCond)
deriving Repr, DecidableEq

/-- The primary lookup key both modes share: `doi` when present and truthy
(`if "doi" in data and data["doi"]:`), else `title` when present
(`elif "title" in data:`), else none (the query dict stays empty). -/
def primaryKey (data : Json) : Option (String × Json) :=
  match data.get "doi" with
  | some d =>
      if jsonTruthy d then some ("doi", d)
      else
        match data.get "title" with
        | some t => some ("title", t)
        | none => none
  | none =>
      match data.get "title" with
      | some t => some ("title", t)
      | none => none

/-- `[d.get("name", "") for d in data["dataset"] if isinstance(d, dict)]`,
guarded by `"dataset" in data and isinstance(data["dataset"], list)`:
the candidate's dataset names, with `""` defaulted for nameless entries. -/
def extractDatasetNames (data : Json) : List Json :=
  match data.get "dataset" with
  | some (Json.arr xs) =>
      xs.filterMap (fun d =>
        match d with
        | Json.obj _ => some ((d.get "name").getD (Json.str ""))
        | _ => none)
  | _ => []

/-- The values found at the dotted path `dataset.name` of a stored record,
following the store's path semantics: an array field is traversed
elementwise, an embedded object is dereferenced directly. -/
def datasetNameValues (rec : Json) : List Json :=
  match rec.get "dataset" with
  | some (Json.arr xs) => xs.filterMap (fun d => d.get "name")
  | some (Json.obj kvs) => ((Json.obj kvs).get "name").toList
  | _ => []

/-- Whether a stored record satisfies the `dataset.name` clause:
`$in` holds when some value at the path is one of the listed names,
`$exists` when the path resolves to at least one value. -/
def matchesDatasetCond (c : DatasetCond) (rec : Json) : Bool :=
  match c with
  | .inNames names => (datasetNameValues rec).any (fun v => names.contains v)
  | .existsName => !(datasetNameValues rec).isEmpty

/-- Whether a stored record satisfies a duplicate-lookup filter.  Field
equality is scalar equality on the stored value; the keys queried (`doi`,
`title`) hold strings in every record this tool writes. -/
def matchesQuery (q : DupQuery) (rec : Json) : Bool :=
  match q with
  | .eqField f v => rec.get f == some v
  | .eqFieldAndDataset f v c => (rec.get f == some v) && matchesDatasetCond c rec

/-- The filter the duplicate check builds for a candidate, by mode.  The
whole block is guarded by `if not skip_duplicate_check:` (line 203), and
`skip_duplicate_check` is `True` for disabled and the truthy string
`"basic"` for basic, so BOTH skip the block and build no filter: only
enhanced (`False`) enters it.  Inside the block `skip_duplicate_check`
is necessarily `False`, so the comparison `skip_duplicate_check ==
"basic"` at line 206 is false and the enhanced arm runs: the primary key
joined with the dataset clause, `$in` over the extracted names when any
exist, else `$exists`.  `none` is the empty query dict, which is never
sent to the store (`if query and ...`). -/
def buildQuery : DupMode → Json → Option DupQuery
  | .disabled, _ => none
  | .basic, _ => none
  | .enhanced, data =>
      (primaryKey data).map (fun fv =>
        let names := extractDatasetNames data
        .eqFieldAndDataset fv.1 fv.2
          (if names.isEmpty then .existsName else .inNames names))

/-- The filter the basic branch (lines 206-214) would build — the doi/title
single-field equality.  The branch is dead code: it sits inside `if not
skip_duplicate_check:`, which already failed for the truthy `"basic"`
sentinel, so `buildQuery .basic` (the program's actual behaviour) is
`none` while this is the behaviour the menu's "Basic duplicate detection
enabled" message announces. -/
def basicBranchQuery (data : Json) : Option DupQuery :=
  (primaryKey data).map (fun fv => .eqField fv.1 fv.2)

/-- The `reason` the block records in the duplicate report: the queried key
name for a single-field query (`"doi" if "doi" in query else "title"`),
the key name suffixed with `+dataset` for an enhanced query. -/
def dupReason : DupQuery → String
  | .eqField f _ => f
  | .eqFieldAndDataset f _ _ => f ++ "+dataset"

/-- `collection.find_one(query)` over the modelled store: the first stored
record satisfying the filter, if any. -/
def findOne (store : List Json) (q : DupQuery) : Option Json :=
  store.find? (matchesQuery q)

/-- Whether the duplicate check flags a candidate: some filter was built
and the store holds a matching record (`if query and (existing := collection.find_one(query)):`). -/
def isDuplicate (mode : DupMode) (store : List Json) (data : Json) : Bool :=
  match buildQuery mode data with
  | some q => (findOne store q).isSome
  | none => false

/-- The enhanced duplicate criterion exactly as the specification words it,
for comparison with the source's behaviour: a record matching the primary
key whose dataset-name list intersects the candidate's names — or, when
the candidate carries no dataset names, a record matching the primary key
"that has some dataset field present". -/
def specEnhancedDuplicate (data : Json) (store : List Json) : Bool :=
  match primaryKey data with
  | none => false
  | some (f, v) =>
      let names := extractDatasetNames data
      store.any (fun rec =>
        (rec.get f == some v)
        && (if names.isEmpty then (rec.get "dataset").isSome
            else (datasetNameValues rec).any (fun n => names.contains n)))

/-- One discovered `.json` file, as the per-file loop receives it: a file
whose `open` call raises, a file whose body `json.load` cannot decode, or
a successfully decoded value. -/
inductive FileInput where
  | openFail
  | decodeFail
  | parsed (data : Json)
deriving Repr, DecidableEq

/-- The classification the loop assigns to one decoded file. -/
inductive Outcome where
  | inserted (data : Json)
  | dupSkipped (reason : String) (data : Json)
  | invalid
  | loadError
deriving Repr, DecidableEq

/-- One entry of the duplicate report: file path, reason tag, and the
candidate's `data.get("doi", data.get("title", "unknown"))` value. -/
structure DupEntry where
  file : String
  reason : String
  value : Json
deriving Repr, DecidableEq

/-- The run's mutable state: the backing store plus the four counters and
three report lists `import_json_studies` accumulates. -/
structure RunState where
  store : List Json
  countInserted : Nat
  countSkipped : Nat
  countInvalid : Nat
  countLoadErrors : Nat
  duplicateReport : List DupEntry
  validationReport : List String
  loadErrorReport : List String
deriving Repr, DecidableEq, Inhabited

/-- The state at the top of the loop: the persisted store with all
counters and reports fresh. -/
def initState (store : List Json) : RunState :=
  ⟨store, 0, 0, 0, 0, [], [], []⟩

/-- `data.get("doi", data.get("title", "unknown"))`: Python `dict.get`
returns the stored value whenever the key is present, falling through the
defaults only on absence. -/
def dupValue (data : Json) : Json :=
  match data.get "doi" with
  | some v => v
  | none =>
      match data.get "title" with
      | some v => v
      | none => Json.str "unknown"

/-- Decide one decoded file, mirroring the loop body's order: schema
validation first, then the duplicate lookup when a filter was built, then
insertion.  An unopenable file is the one fault the loop body does not
reach: `with open(...)` sits before the `try`, so its exception escapes
(`Except.error`). -/
def classify (mode : DupMode) (store : List Json) : FileInput → Except Unit Outcome
  | .openFail => .error ()
  | .decodeFail => .ok .loadError
  | .parsed data =>
      if validateStudy data then
        match buildQuery mode data with
        | some q =>
            match findOne store q with
            | some _ => .ok (.dupSkipped (dupReason q) data)
            | none => .ok (.inserted data)
        | none => .ok (.inserted data)
      else .ok .invalid

/-- Apply one file's outcome to the run state: bump the matching counter,
append to the matching report, and append to the store on insertion. -/
def applyOutcome (file : String) (o : Outcome) (st : RunState) : RunState :=
  match o with
  | .inserted data =>
      { st with store := st.store ++ [data],
                countInserted := st.countInserted + 1 }
  | .dupSkipped r data =>
      { st with countSkipped := st.countSkipped + 1,
                duplicateReport := st.duplicateReport ++ [⟨file, r, dupValue data⟩] }
  | .invalid =>
      { st with countInvalid := st.countInvalid + 1,
                validationReport := st.validationReport ++ [file] }
  | .loadError =>
      { st with countLoadErrors := st.countLoadErrors + 1,
                loadErrorReport := st.loadErrorReport ++ [file] }

/-- Process one discovered file (path plus content). -/
def processFile (mode : DupMode) (st : RunState) (file : String × FileInput) :
    Except Unit RunState :=
  (classify mode st.store file.2).map (fun o => applyOutcome file.1 o st)

/-- The per-file loop over the discovered files, threading the run state;
an uncaught per-file exception aborts the remainder of the run. -/
def runFiles (mode : DupMode) : List (String × FileInput) → RunState → Except Unit RunState
  | [], st => .ok st
  | f :: rest, st =>
      match processFile mode st f with
      | .ok st1 => runFiles mode rest st1
      | .error e => .error e

/-- `import_json_studies` on a source directory yielding `files`, against a
persisted store: run the loop from a fresh state. -/
def importRun (mode : DupMode) (files : List (String × FileInput)) (store : List Json) :
    Except Unit RunState :=
  runFiles mode files (initState store)

/-- The report artifacts the end of a run writes: one named file per
non-empty report list (the three trailing `if <report>:` blocks). -/
def emittedReports (st : RunState) : List String :=
  (if st.duplicateReport.isEmpty then [] else ["duplicate_report.json"])
  ++ (if st.validationReport.isEmpty then [] else ["validation_report.json"])
  ++ (if st.loadErrorReport.isEmpty then [] else ["load_error_report.json"])

/-- The records a run appended beyond the first `n` (the persisted prefix):
with `n` the initial store's length, exactly the documents this run gave
to `insert_one`. -/
def newRecords (n : Nat) (st : RunState) : List Json :=
  st.store.drop n

/-- Unwrap a completed run (used only to name concrete run results). -/
def getOk (e : Except Unit RunState) : RunState :=
  match e with
  | .ok st => st
  | .error _ => default

/-- A minimal well-formed study record: every required field present and
typed, one author, one approach with a scalar result, doi `"X"`. -/
def recGood : Json :=
  Json.obj
    [("study_id", Json.str "s1"),
     ("title", Json.str "T"),
     ("authors", Json.arr [Json.obj [("name", Json.str "A")]]),
     ("publication_type", Json.str "journal article"),
     ("journal", Json.str "J"),
     ("year", Json.num 2020),
     ("doi", Json.str "X"),
     ("ml_approaches",
      Json.arr [Json.obj [("algorithm", Json.str "svm"),
                          ("results", Json.obj [("accuracy", Json.num 1)])]])]

/-- A candidate carrying only a doi — no dataset names. -/
def candNoNames : Json := Json.obj [("doi", Json.str "X")]

/-- A stored record with the same doi and a dataset field whose single
entry carries no `name`. -/
def recDatasetNoName : Json :=
  Json.obj [("doi", Json.str "X"),
            ("dataset", Json.arr [Json.obj [("size", Json.num 5)]])]

/-- `recGood` with `ml_approaches` emptied. -/
def recEmptyMl : Json := recGood.setField "ml_approaches" (Json.arr [])

/-- A one-file source directory: the single valid record `recGood`. -/
def filesOne : List (String × FileInput) := [("a.json", FileInput.parsed recGood)]

/-- The state after a first basic-mode run of `filesOne` on an empty store. -/
def stB1 : RunState := getOk (importRun .basic filesOne [])

/-- The state after re-running `filesOne` in basic mode over `stB1`'s store:
since basic mode performs no duplicate check, the record is re-inserted. -/
def stB2 : RunState := getOk (importRun .basic filesOne stB1.store)

/-- The state after a first enhanced-mode run of `filesOne` on an empty store. -/
def stE1 : RunState := getOk (importRun .enhanced filesOne [])

/-- The state after re-running `filesOne` in enhanced mode over `stE1`'s store. -/
def stE2 : RunState := getOk (importRun .enhanced filesOne stE1.store)

/-- An approach whose `results` map holds an array value. -/
def appBadResults : Json :=
  Json.obj [("algorithm", Json.str "svm"),
            ("results", Json.obj [("accuracy", Json.arr [])])]

/-- `recGood` with its single approach replaced by `appBadResults`. -/
def recBadResults : Json :=
  recGood.setField "ml_approaches" (Json.arr [appBadResults])

/-- The state after a run over a single undecodable file. -/
def stW9 : RunState := getOk (importRun .basic [("broken.json", FileInput.decodeFail)] [])

/-- The state after an enhanced-mode run of `filesOne` on an empty store
(used to instantiate the store-invariant theorem). -/
def stW10 : RunState := getOk (importRun .enhanced filesOne [])

/-- A valid record that also carries a `dataset` entry with a name — the
schema leaves the undeclared `dataset` key unconstrained
(`additionalProperties: True`). -/
def recWithDs : Json :=
  Json.obj
    [("study_id", Json.str "s2"),
     ("title", Json.str "T2"),
     ("authors", Json.arr [Json.obj [("name", Json.str "A")]]),
     ("publication_type", Json.str "journal article"),
     ("journal", Json.str "J"),
     ("year", Json.num 2021),
     ("doi", Json.str "Y"),
     ("dataset", Json.arr [Json.obj [("name", Json.str "A")]]),
     ("ml_approaches",
      Json.arr [Json.obj [("algorithm", Json.str "svm"),
                          ("results", Json.obj [("accuracy", Json.num 1)])]])]

/-- A one-file source directory: the single record `recWithDs`. -/
def filesDs : List (String × FileInput) := [("a.json", FileInput.parsed recWithDs)]

/-- The state after a first enhanced-mode run of `filesDs` on an empty store. -/
def stD1 : RunState := getOk (importRun .enhanced filesDs [])

/-- The state after re-running `filesDs` in enhanced mode over `stD1`'s store. -/
def stD2 : RunState := getOk (importRun .enhanced filesDs stD1.store)

theorem getKey_setKey_ne (kvs : List (String × Json)) (k : String) (v : Json)
    (k' : String) (h : k' ≠ k) : getKey (setKey kvs k v) k' = getKey kvs k' := by
  induction kvs with
  | nil => rfl
  | cons kv rest ih =>
      simp only [setKey]
      by_cases h1 : kv.1 = k
      · have e1 : ¬(k = k') := fun e => h e.symm
        simp [getKey, h1, e1, ih]
      · simp [getKey, h1, ih]

theorem getKey_setKey_self (kvs : List (String × Json)) (k : String) (v : Json) :
    getKey (setKey kvs k v) k = (getKey kvs k).map (fun _ => v) := by
  induction kvs with
  | nil => rfl
  | cons kv rest ih =>
      simp only [setKey]
      by_cases h1 : kv.1 = k
      · simp [getKey, h1]
      · simp [getKey, h1, ih]

theorem get_setField_ne (j : Json) (k : String) (v : Json) (k' : String) (h : k' ≠ k) :
    (j.setField k v).get k' = j.get k' := by
  cases j <;> simp [Json.setField, Json.get, getKey_setKey_ne _ _ _ _ h]

theorem get_setField_self (j : Json) (k : String) (v : Json) :
    (j.setField k v).get k = (j.get k).map (fun _ => v) := by
  cases j <;> simp [Json.setField, Json.get, getKey_setKey_self]

theorem isObj_setField (j : Json) (k : String) (v : Json) :
    (j.setField k v).isObj = j.isObj := by
  cases j <;> simp [Json.setField, Json.isObj]

theorem checkOpt_setField_ne (j : Json) (k : String) (v : Json) (k' : String)
    (p : Json → Bool) (h : k' ≠ k) :
    checkOpt (j.setField k v) k' p = checkOpt j k' p := by
  simp [checkOpt, get_setField_ne j k v k' h]

theorem findOne_isSome (store : List Json) (q : DupQuery) :
    (findOne store q).isSome = true ↔ ∃ rec ∈ store, matchesQuery q rec = true := by
  simp [findOne, List.find?_isSome]

theorem primaryKey_get (data : Json) (f : String) (v : Json)
    (h : primaryKey data = some (f, v)) : data.get f = some v := by
  unfold primaryKey at h
  cases hd : data.get "doi" with
  | some d =>
      rw [hd] at h; dsimp only at h
      by_cases ht : jsonTruthy d = true
      · rw [if_pos ht] at h
        obtain ⟨rfl, rfl⟩ := Prod.mk.injEq .. ▸ Option.some.inj h
        exact hd
      · rw [if_neg ht] at h
        cases hti : data.get "title" with
        | some t =>
            rw [hti] at h; dsimp only at h
            obtain ⟨rfl, rfl⟩ := Prod.mk.injEq .. ▸ Option.some.inj h
            exact hti
        | none => rw [hti] at h; dsimp only at h; cases h
  | none =>
      rw [hd] at h; dsimp only at h
      cases hti : data.get "title" with
      | some t =>
          rw [hti] at h; dsimp only at h
          obtain ⟨rfl, rfl⟩ := Prod.mk.injEq .. ▸ Option.some.inj h
          exact hti
      | none => rw [hti] at h; dsimp only at h; cases h

theorem validate_title_isSome (j : Json) (hv : validateStudy j = true) :
    (j.get "title").isSome = true := by
  simp only [validateStudy, Bool.and_eq_true] at hv
  tauto

theorem validate_primaryKey (j : Json) (hv : validateStudy j = true) :
    ∃ f v, primaryKey j = some (f, v) := by
  obtain ⟨t, ht⟩ := Option.isSome_iff_exists.mp (validate_title_isSome j hv)
  unfold primaryKey
  cases hd : j.get "doi" with
  | some d =>
      by_cases htr : jsonTruthy d = true
      · exact ⟨"doi", d, by dsimp only; rw [if_pos htr]⟩
      · exact ⟨"title", t, by dsimp only; rw [if_neg htr, ht]⟩
  | none => exact ⟨"title", t, by dsimp only; rw [ht]⟩

theorem isDuplicate_append (mode : DupMode) (data : Json) (s t : List Json)
    (h : isDuplicate mode s data = true) : isDuplicate mode (s ++ t) data = true := by
  simp only [isDuplicate] at h ⊢
  cases hq : buildQuery mode data with
  | none => rw [hq] at h; dsimp only at h; cases h
  | some q =>
      rw [hq] at h; dsimp only at h ⊢
      obtain ⟨rec, hm, hmq⟩ := (findOne_isSome s q).mp h
      exact (findOne_isSome (s ++ t) q).mpr ⟨rec, List.mem_append_left _ hm, hmq⟩

theorem mem_datasetNameValues_extract (j n : Json)
    (hni : (extractDatasetNames j).isEmpty = false)
    (hn : n ∈ datasetNameValues j) : n ∈ extractDatasetNames j := by
  unfold extractDatasetNames at hni ⊢
  unfold datasetNameValues at hn
  cases hd : j.get "dataset" with
  | none => rw [hd] at hn; simp at hn
  | some dv =>
      rw [hd] at hni hn
      cases dv with
      | arr xs =>
          dsimp only at hni hn
          rw [List.mem_filterMap] at hn ⊢
          obtain ⟨d, hdx, hdn⟩ := hn
          refine ⟨d, hdx, ?_⟩
          cases d with
          | obj kvs => simp [hdn]
          | null => simp [Json.get] at hdn
          | bool b => simp [Json.get] at hdn
          | num m => simp [Json.get] at hdn
          | str t => simp [Json.get] at hdn
          | arr ys => simp [Json.get] at hdn
      | obj kvs => simp at hni
      | null => simp at hn
      | bool b => simp at hn
      | num m => simp at hn
      | str t => simp at hn

theorem enhanced_self_dup (j : Json) (s : List Json) (hv : validateStudy j = true)
    (hm : j ∈ s) (hds : datasetNameValues j ≠ []) :
    isDuplicate .enhanced s j = true := by
  obtain ⟨f, v, hpk⟩ := validate_primaryKey j hv
  have hget := primaryKey_get j f v hpk
  simp only [isDuplicate, buildQuery, hpk, Option.map_some']
  refine (findOne_isSome s _).mpr ⟨j, hm, ?_⟩
  simp only [matchesQuery, Bool.and_eq_true, beq_iff_eq]
  refine ⟨hget, ?_⟩
  by_cases hni : (extractDatasetNames j).isEmpty
  · rw [if_pos hni]
    simp only [matchesDatasetCond]
    rcases hl : datasetNameValues j with _ | ⟨a, l⟩
    · exact absurd hl hds
    · simp
  · rw [if_neg hni]
    simp only [matchesDatasetCond]
    obtain ⟨n, hn⟩ := List.exists_mem_of_ne_nil _ hds
    have hmem := mem_datasetNameValues_extract j n
      (Bool.eq_false_iff.mpr hni) hn
    rw [List.any_eq_true]
    exact ⟨n, hn, by rw [List.elem_iff]; exact hmem⟩

theorem classify_invalid (mode : DupMode) (store : List Json) (data : Json)
    (hv : validateStudy data = false) :
    classify mode store (.parsed data) = .ok .invalid := by
  simp [classify, hv]

theorem classify_not_dup (mode : DupMode) (store : List Json) (data : Json)
    (hv : validateStudy data = true) (hd : isDuplicate mode store data = false) :
    classify mode store (.parsed data) = .ok (.inserted data) := by
  simp only [isDuplicate] at hd
  simp only [classify, hv, if_true]
  cases hq : buildQuery mode data with
  | none => rfl
  | some q =>
      rw [hq] at hd; dsimp only at hd
      cases hf : findOne store q with
      | some r => rw [hf] at hd; cases hd
      | none => simp [hf]

theorem classify_dup (mode : DupMode) (store : List Json) (data : Json)
    (hv : validateStudy data = true) (hd : isDuplicate mode store data = true) :
    ∃ q, buildQuery mode data = some q ∧
      classify mode store (.parsed data) = .ok (.dupSkipped (dupReason q) data) := by
  simp only [isDuplicate] at hd
  cases hq : buildQuery mode data with
  | none => rw [hq] at hd; dsimp only at hd; cases hd
  | some q =>
      rw [hq] at hd; dsimp only at hd
      refine ⟨q, rfl, ?_⟩
      simp only [classify, hv, if_true, hq]
      cases hf : findOne store q with
      | some r => simp [hf]
      | none => rw [hf] at hd; cases hd

theorem runFiles_cons_ok (mode : DupMode) (f : String × FileInput)
    (rest : List (String × FileInput)) (st st' : RunState)
    (h : runFiles mode (f :: rest) st = .ok st') :
    ∃ st1, processFile mode st f = .ok st1 ∧ runFiles mode rest st1 = .ok st' := by
  simp only [runFiles] at h
  cases hpf : processFile mode st f with
  | error e => rw [hpf] at h; cases h
  | ok st1 => rw [hpf] at h; exact ⟨st1, rfl, h⟩

theorem processFile_openFail (mode : DupMode) (st : RunState) (name : String) :
    processFile mode st (name, .openFail) = .error () := rfl

theorem processFile_of_classify (mode : DupMode) (st : RunState) (name : String)
    (inp : FileInput) (o : Outcome) (hc : classify mode st.store inp = .ok o) :
    processFile mode st (name, inp) = .ok (applyOutcome name o st) := by
  simp [processFile, hc, Except.map]

theorem runFiles_new_validated (mode : DupMode) (files : List (String × FileInput)) :
    ∀ st st' : RunState, runFiles mode files st = .ok st' →
      ∃ ext, st'.store = st.store ++ ext ∧ (∀ j ∈ ext, validateStudy j = true) ∧
        st'.countInserted = st.countInserted + ext.length := by
  induction files with
  | nil =>
      intro st st' h
      simp only [runFiles] at h
      cases h
      exact ⟨[], by simp, by simp, by simp⟩
  | cons f rest ih =>
      intro st st' h
      obtain ⟨name, inp⟩ := f
      cases inp with
      | openFail =>
          simp only [runFiles, processFile_openFail] at h
          cases h
      | decodeFail =>
          simp only [runFiles, processFile_of_classify mode st name FileInput.decodeFail
            Outcome.loadError rfl] at h
          obtain ⟨ext, h1, h2, h3⟩ := ih _ _ h
          exact ⟨ext, by simpa [applyOutcome] using h1, h2, by simpa [applyOutcome] using h3⟩
      | parsed data =>
          cases hv : validateStudy data with
          | false =>
              simp only [runFiles, processFile_of_classify mode st name _ _
                (classify_invalid mode st.store data hv)] at h
              obtain ⟨ext, h1, h2, h3⟩ := ih _ _ h
              exact ⟨ext, by simpa [applyOutcome] using h1, h2,
                by simpa [applyOutcome] using h3⟩
          | true =>
              cases hd : isDuplicate mode st.store data with
              | true =>
                  obtain ⟨q, hq, hcl⟩ := classify_dup mode st.store data hv hd
                  simp only [runFiles, processFile_of_classify mode st name _ _ hcl] at h
                  obtain ⟨ext, h1, h2, h3⟩ := ih _ _ h
                  exact ⟨ext, by simpa [applyOutcome] using h1, h2,
                    by simpa [applyOutcome] using h3⟩
              | false =>
                  simp only [runFiles, processFile_of_classify mode st name _ _
                    (classify_not_dup mode st.store data hv hd)] at h
                  obtain ⟨ext, h1, h2, h3⟩ := ih _ _ h
                  refine ⟨data :: ext, ?_, ?_, ?_⟩
                  · simpa [applyOutcome, List.append_assoc] using h1
                  · intro j hj
                    rcases List.mem_cons.mp hj with rfl | hj'
                    · exact hv
                    · exact h2 j hj'
                  · simp only [applyOutcome] at h3
                    simp only [List.length_cons]
                    omega

theorem runFiles_enhanced_covers (files : List (String × FileInput)) :
    ∀ st st' : RunState, runFiles .enhanced files st = .ok st' →
      ∀ p ∈ files, ∀ j, p.2 = FileInput.parsed j → validateStudy j = true →
        datasetNameValues j ≠ [] →
        isDuplicate .enhanced st'.store j = true := by
  induction files with
  | nil => intro st st' _ p hp; exact absurd hp (List.not_mem_nil p)
  | cons f rest ih =>
      intro st st' h p hp j hpj hvj hds
      obtain ⟨name, inp⟩ := f
      rcases List.mem_cons.mp hp with hph | hp'
      · subst hph
        simp only at hpj
        subst hpj
        cases hd : isDuplicate .enhanced st.store j with
        | true =>
            obtain ⟨q, hq, hcl⟩ := classify_dup _ _ _ hvj hd
            simp only [runFiles, processFile_of_classify _ st name _ _ hcl] at h
            obtain ⟨ext, h1, h2, h3⟩ := runFiles_new_validated _ _ _ _ h
            have h1' : st'.store = st.store ++ ext := by simpa [applyOutcome] using h1
            rw [h1']
            exact isDuplicate_append _ _ _ _ hd
        | false =>
            simp only [runFiles, processFile_of_classify _ st name _ _
              (classify_not_dup _ _ _ hvj hd)] at h
            obtain ⟨ext, h1, h2, h3⟩ := runFiles_new_validated _ _ _ _ h
            have h1' : st'.store = st.store ++ [j] ++ ext := by
              simpa [applyOutcome] using h1
            have hm : j ∈ st'.store := by rw [h1']; simp
            exact enhanced_self_dup j _ hvj hm hds
      · obtain ⟨st1, hpf, hrest⟩ := runFiles_cons_ok _ _ _ _ _ h
        exact ih st1 st' hrest p hp' j hpj hvj hds

theorem runFiles_no_insert (mode : DupMode) (files : List (String × FileInput)) :
    ∀ st st' : RunState,
      (∀ p ∈ files, ∀ j, p.2 = FileInput.parsed j → validateStudy j = true →
        isDuplicate mode st.store j = true) →
      runFiles mode files st = .ok st' →
      st'.store = st.store ∧ st'.countInserted = st.countInserted := by
  induction files with
  | nil =>
      intro st st' _ h
      simp only [runFiles] at h
      cases h
      exact ⟨rfl, rfl⟩
  | cons f rest ih =>
      intro st st' hdup h
      obtain ⟨name, inp⟩ := f
      cases inp with
      | openFail =>
          simp only [runFiles, processFile_openFail] at h
          cases h
      | decodeFail =>
          simp only [runFiles, processFile_of_classify mode st name FileInput.decodeFail
            Outcome.loadError rfl] at h
          have hst : (applyOutcome name Outcome.loadError st).store = st.store := by
            simp [applyOutcome]
          obtain ⟨e1, e2⟩ := ih _ _
            (fun p hp j hpj hvj => by
              rw [hst]; exact hdup p (List.mem_cons_of_mem _ hp) j hpj hvj) h
          rw [hst] at e1
          refine ⟨e1, ?_⟩
          rw [e2]
          simp [applyOutcome]
      | parsed data =>
          cases hv : validateStudy data with
          | false =>
              simp only [runFiles, processFile_of_classify mode st name _ _
                (classify_invalid mode st.store data hv)] at h
              have hst : (applyOutcome name Outcome.invalid st).store = st.store := by
                simp [applyOutcome]
              obtain ⟨e1, e2⟩ := ih _ _
                (fun p hp j hpj hvj => by
                  rw [hst]; exact hdup p (List.mem_cons_of_mem _ hp) j hpj hvj) h
              rw [hst] at e1
              refine ⟨e1, ?_⟩
              rw [e2]
              simp [applyOutcome]
          | true =>
              have hd : isDuplicate mode st.store data = true :=
                hdup (name, .parsed data) (List.mem_cons_self _ _) data rfl hv
              obtain ⟨q, hq, hcl⟩ := classify_dup mode st.store data hv hd
              simp only [runFiles, processFile_of_classify mode st name _ _ hcl] at h
              have hst : (applyOutcome name (Outcome.dupSkipped (dupReason q) data) st).store
                  = st.store := by
                simp [applyOutcome]
              obtain ⟨e1, e2⟩ := ih _ _
                (fun p hp j hpj hvj => by
                  rw [hst]; exact hdup p (List.mem_cons_of_mem _ hp) j hpj hvj) h
              rw [hst] at e1
              refine ⟨e1, ?_⟩
              rw [e2]
              simp [applyOutcome]

/-- Claim C2 (amended): with Enhanced duplicate detection, if every valid
record of the directory yields at least one `dataset.name` value, running
the import twice in sequence against a persisted store inserts nothing on
the second run — every record the first run inserted (or could already
see) is flagged as a duplicate.  The unrestricted claim is refuted by
`rerun_reinserts`. -/
theorem enhanced_rerun_inserts_nothing (files : List (String × FileInput))
    (store0 : List Json) (st1 st2 : RunState)
    (hnames : ∀ p ∈ files, ∀ j, p.2 = FileInput.parsed j → validateStudy j = true →
      datasetNameValues j ≠ [])
    (h1 : importRun .enhanced files store0 = .ok st1)
    (h2 : importRun .enhanced files st1.store = .ok st2) :
    st2.countInserted = 0 := by
  simp only [importRun] at h1 h2
  have hcov := runFiles_enhanced_covers files _ _ h1
  have hdup : ∀ p ∈ files, ∀ j, p.2 = FileInput.parsed j → validateStudy j = true →
      isDuplicate .enhanced (initState st1.store).store j = true := by
    intro p hp j hpj hvj
    simpa [initState] using hcov p hp j hpj hvj (hnames p hp j hpj hvj)
  have hni := runFiles_no_insert .enhanced files _ _ hdup h2
  simpa [initState] using hni.2

/-- Claim C2 (counterexample): re-running the same directory re-inserts.
In Enhanced mode a validated record with no dataset names is re-inserted —
its own stored copy has no `dataset.name` path, so the relaxed `$exists`
clause fails to match it; in Basic mode the truthy `"basic"` sentinel
skips the duplicate block entirely, so every valid record is re-inserted.
Either way the second run's inserted count is 1, not 0. -/
theorem rerun_reinserts :
    importRun .enhanced filesOne [] = .ok stE1 ∧
    importRun .enhanced filesOne stE1.store = .ok stE2 ∧
    stE2.countInserted = 1 ∧
    importRun .basic filesOne [] = .ok stB1 ∧
    importRun .basic filesOne stB1.store = .ok stB2 ∧
    stB2.countInserted = 1 :=
  ⟨rfl, rfl, rfl, rfl, rfl, rfl⟩

/-- Claim C2 (witness): a concrete enhanced-mode double run over a record
carrying a dataset name inserts nothing the second time. -/
theorem enhanced_rerun_witness : stD2.countInserted = 0 :=
  enhanced_rerun_inserts_nothing filesDs [] stD1 stD2
    (fun p hp j hpj _ => by
      rw [List.mem_singleton.mp hp] at hpj
      cases hpj
      decide)
    rfl rfl

/-- Claim C4: an unopenable file aborts the whole run — `with open(...)`
sits before the `try`, so its exception is not caught, no later file is
processed, and no state survives; by contrast a fault arising inside the
loop body (here a decode failure) is recorded for that file and the run
continues to the next file. -/
theorem open_failure_aborts_run :
    importRun .basic
        [("bad.json", FileInput.openFail), ("good.json", FileInput.parsed recGood)] []
      = .error () ∧
    importRun .basic
        [("broken.json", FileInput.decodeFail), ("good.json", FileInput.parsed recGood)] []
      = .ok ⟨[recGood], 1, 0, 0, 1, [], [], ["broken.json"]⟩ :=
  ⟨rfl, rfl⟩

/-- Claim C8: with duplicate detection Disabled no filter is ever built, no
candidate is ever flagged, and the classification of any file is the same
against any two stores. -/
theorem disabled_ignores_store (data : Json) (s1 s2 : List Json) (inp : FileInput) :
    buildQuery .disabled data = none ∧
    isDuplicate .disabled s1 data = false ∧
    classify .disabled s1 inp = classify .disabled s2 inp := by
  refine ⟨rfl, rfl, ?_⟩
  cases inp with
  | openFail => rfl
  | decodeFail => rfl
  | parsed d =>
      cases hv : validateStudy d with
      | false => simp [classify, hv]
      | true => simp [classify, hv, buildQuery]

/-- Claim C6: when no primary key can be formed — no truthy `doi` and no
`title` — the query dict stays empty, so no store lookup happens and the
candidate is not flagged, in every mode. -/
theorem no_key_no_lookup (mode : DupMode) (store : List Json) (data : Json)
    (hdoi : jsonTruthy ((data.get "doi").getD Json.null) = false)
    (htitle : data.get "title" = none) :
    primaryKey data = none ∧ buildQuery mode data = none ∧
      isDuplicate mode store data = false := by
  have hpk : primaryKey data = none := by
    unfold primaryKey
    cases hd : data.get "doi" with
    | none => simp [htitle]
    | some d =>
        rw [hd] at hdoi
        simp only [Option.getD] at hdoi
        dsimp only
        rw [if_neg (by simp [hdoi]), htitle]
  refine ⟨hpk, ?_, ?_⟩
  · cases mode <;> simp [buildQuery, hpk]
  · cases mode <;> simp [isDuplicate, buildQuery, hpk]

/-- Claim C6 (witness): a candidate with an empty `doi` and no `title` is
not flagged even against a non-empty store. -/
theorem no_key_no_lookup_witness :
    isDuplicate .enhanced [recGood] (Json.obj [("doi", Json.str "")]) = false :=
  (no_key_no_lookup .enhanced [recGood] (Json.obj [("doi", Json.str "")]) rfl rfl).2.2

/-- Claim C9: at the end of a completed run, each of the three report
artifacts is emitted exactly when its outcome list is non-empty. -/
theorem reports_emitted_iff_nonempty (mode : DupMode) (files : List (String × FileInput))
    (store0 : List Json) (st : RunState) (h : importRun mode files store0 = .ok st) :
    ("duplicate_report.json" ∈ emittedReports st ↔ st.duplicateReport ≠ []) ∧
    ("validation_report.json" ∈ emittedReports st ↔ st.validationReport ≠ []) ∧
    ("load_error_report.json" ∈ emittedReports st ↔ st.loadErrorReport ≠ []) := by
  obtain ⟨store, ci, cs, cv, cl, dr, vr, lr⟩ := st
  refine ⟨?_, ?_, ?_⟩ <;>
    cases dr <;> cases vr <;> cases lr <;> simp [emittedReports]

/-- Claim C9 (witness): a run with one undecodable file emits the
load-error artifact criterion concretely. -/
theorem reports_emitted_witness :
    ("duplicate_report.json" ∈ emittedReports stW9 ↔ stW9.duplicateReport ≠ []) :=
  (reports_emitted_iff_nonempty .basic [("broken.json", FileInput.decodeFail)] [] stW9 rfl).1

/-- Claim C10: every record a completed run adds to the store beyond the
persisted prefix passed schema validation in that run's per-file pass, and
the inserted count equals the number of such records — invalid or
duplicate files never reach `insert_one`. -/
theorem store_receives_only_validated (mode : DupMode) (files : List (String × FileInput))
    (store0 : List Json) (st : RunState) (h : importRun mode files store0 = .ok st) :
    st.store = store0 ++ newRecords store0.length st ∧
    (newRecords store0.length st).all validateStudy = true ∧
    st.countInserted = (newRecords store0.length st).length := by
  simp only [importRun] at h
  obtain ⟨ext, h1, h2, h3⟩ := runFiles_new_validated mode files _ _ h
  have hst : st.store = store0 ++ ext := by simpa [initState] using h1
  have hext : newRecords store0.length st = ext := by
    rw [newRecords, hst, List.drop_left]
  rw [hext]
  exact ⟨hst, List.all_eq_true.mpr h2, by simpa [initState] using h3⟩

/-- Claim C10 (witness): a concrete enhanced-mode run whose single new
store record validated. -/
theorem store_receives_only_validated_witness :
    stW10.store = [] ++ newRecords 0 stW10 ∧
    (newRecords 0 stW10).all validateStudy = true ∧
    stW10.countInserted = (newRecords 0 stW10).length :=
  store_receives_only_validated .enhanced filesOne [] stW10 rfl

theorem matchesDatasetCond_spec (data rec : Json) :
    matchesDatasetCond
        (if (extractDatasetNames data).isEmpty then .existsName
         else .inNames (extractDatasetNames data)) rec = true ↔
      (if (extractDatasetNames data).isEmpty
       then datasetNameValues rec ≠ []
       else ∃ n ∈ datasetNameValues rec, n ∈ extractDatasetNames data) := by
  by_cases hni : (extractDatasetNames data).isEmpty
  · simp only [if_pos hni, matchesDatasetCond]
    constructor
    · intro hc hnil
      rw [hnil] at hc
      simp at hc
    · intro hne
      rcases hl : datasetNameValues rec with _ | ⟨a, l⟩
      · exact absurd hl hne
      · simp
  · simp only [if_neg hni, matchesDatasetCond]
    simp [List.any_eq_true, List.elem_iff]

/-- Claim C1 (amended): in Enhanced mode a validated candidate with a
primary key is flagged exactly when the store holds a record matching the
key for which, if the candidate carries dataset names, some `dataset.name`
value of the record is among them, and otherwise the record has some
`dataset.name` value at all — the relaxed clause tests existence of
`dataset.name`, not mere presence of a `dataset` field. -/
theorem enhanced_duplicate_iff (data : Json) (store : List Json) :
    isDuplicate .enhanced store data = true ↔
      ∃ f v, primaryKey data = some (f, v) ∧
        ∃ rec ∈ store, rec.get f = some v ∧
          (if (extractDatasetNames data).isEmpty
           then datasetNameValues rec ≠ []
           else ∃ n ∈ datasetNameValues rec, n ∈ extractDatasetNames data) := by
  simp only [isDuplicate, buildQuery]
  cases hpk : primaryKey data with
  | none => simp
  | some fv =>
      obtain ⟨f, v⟩ := fv
      simp only [Option.map_some']
      rw [findOne_isSome]
      simp only [matchesQuery, Bool.and_eq_true, beq_iff_eq, Option.some.injEq,
        Prod.mk.injEq]
      constructor
      · rintro ⟨rec, hm, hg, hc⟩
        exact ⟨f, v, ⟨rfl, rfl⟩, rec, hm, hg, (matchesDatasetCond_spec data rec).mp hc⟩
      · rintro ⟨f', v', ⟨rfl, rfl⟩, rec, hm, hg, hc⟩
        exact ⟨rec, hm, hg, (matchesDatasetCond_spec data rec).mpr hc⟩

/-- Claim C1 (counterexample): a candidate with doi `"X"` and no dataset
names, against a store record with doi `"X"` whose `dataset` field is
present but whose entry has no name: the claim's relaxed clause ("some
dataset field present") flags it, the code's `dataset.name $exists` query
does not. -/
theorem enhanced_exists_clause_counterexample :
    specEnhancedDuplicate candNoNames [recDatasetNoName] = true ∧
    isDuplicate .enhanced [recDatasetNoName] candNoNames = false :=
  ⟨rfl, rfl⟩

/-- Claim C5: the Basic-mode detection the claim describes is dead code.
The menu sets `skip_duplicate_check = "basic"`, a truthy string, so
`if not skip_duplicate_check:` (line 203) skips the whole duplicate block:
the program builds no query, flags nothing even against a store holding an
identical doi, and re-inserts the exact duplicate.  The unreachable branch
at lines 206-214 (`basicBranchQuery`) would have built precisely the
single-field doi query with reason `"doi"` that the claim states. -/
theorem basic_mode_dead_code :
    buildQuery .basic recGood = none ∧
    isDuplicate .basic [recGood] recGood = false ∧
    importRun .basic [("b.json", FileInput.parsed recGood)] [recGood]
      = .ok ⟨[recGood, recGood], 1, 0, 0, 0, [], [], []⟩ ∧
    basicBranchQuery recGood = some (.eqField "doi" (Json.str "X")) ∧
    dupReason (.eqField "doi" (Json.str "X")) = "doi" :=
  ⟨rfl, rfl, rfl, rfl, rfl⟩

/-- Claim C7: a record in which some `results` value of some approach is
not a scalar (number, string or null) — in particular an object or an
array — fails schema validation. -/
theorem composite_result_invalid (j a v : Json) (apps : List Json)
    (kvs : List (String × Json)) (k : String)
    (happs : j.get "ml_approaches" = some (Json.arr apps))
    (ha : a ∈ apps)
    (hr : a.get "results" = some (Json.obj kvs))
    (hkv : (k, v) ∈ kvs)
    (hcomp : isScalarResult v = false) :
    validateStudy j = false := by
  cases hval : validateStudy j with
  | false => rfl
  | true =>
      exfalso
      have hml : checkOpt j "ml_approaches" (isArrayOf checkApproach) = true := by
        simp only [validateStudy, Bool.and_eq_true] at hval
        tauto
      unfold checkOpt at hml
      rw [happs] at hml
      dsimp only at hml
      simp only [isArrayOf, List.all_eq_true] at hml
      have hca := hml a ha
      have hres : checkOpt a "results" checkResults = true := by
        simp only [checkApproach, Bool.and_eq_true] at hca
        tauto
      unfold checkOpt at hres
      rw [hr] at hres
      dsimp only at hres
      simp only [checkResults, List.all_eq_true] at hres
      have := hres (k, v) hkv
      rw [hcomp] at this
      cases this

/-- Claim C7 (witness): the concrete record whose `accuracy` result is an
array fails validation. -/
theorem composite_result_witness : validateStudy recBadResults = false :=
  composite_result_invalid recBadResults appBadResults (Json.arr [])
    [appBadResults] [("accuracy", Json.arr [])] "accuracy"
    rfl (List.mem_cons_self _ _) rfl (List.mem_cons_self _ _) rfl

/-- Claim C3 (counterexample): a record whose `ml_approaches` is the empty
list — all other required fields present and well-typed — passes schema
validation: the schema constrains the items of `ml_approaches` but sets no
minimum length. -/
theorem empty_ml_passes_validation :
    recEmptyMl.get "ml_approaches" = some (Json.arr []) ∧
    validateStudy recEmptyMl = true :=
  ⟨rfl, rfl⟩

/-- Claim C3 (amended): emptying the `ml_approaches` list of any valid
record keeps it valid — the validator imposes no non-emptiness constraint
on `ml_approaches`. -/
theorem empty_ml_preserves_validity (j : Json) (h : validateStudy j = true) :
    validateStudy (j.setField "ml_approaches" (Json.arr [])) = true := by
  have hmlSome : (j.get "ml_approaches").isSome = true := by
    simp only [validateStudy, Bool.and_eq_true] at h
    tauto
  obtain ⟨x, hx⟩ := Option.isSome_iff_exists.mp hmlSome
  have eml : (j.setField "ml_approaches" (Json.arr [])).get "ml_approaches"
      = some (Json.arr []) := by
    rw [get_setField_self, hx]
    rfl
  have gml : checkOpt (j.setField "ml_approaches" (Json.arr [])) "ml_approaches"
      (isArrayOf checkApproach) = true := by
    unfold checkOpt
    rw [eml]
    rfl
  have e0 := isObj_setField j "ml_approaches" (Json.arr [])
  have e1 := get_setField_ne j "ml_approaches" (Json.arr []) "study_id" (by decide)
  have e2 := get_setField_ne j "ml_approaches" (Json.arr []) "title" (by decide)
  have e3 := get_setField_ne j "ml_approaches" (Json.arr []) "authors" (by decide)
  have e4 := get_setField_ne j "ml_approaches" (Json.arr []) "publication_type" (by decide)
  have e5 := get_setField_ne j "ml_approaches" (Json.arr []) "journal" (by decide)
  have e6 := get_setField_ne j "ml_approaches" (Json.arr []) "year" (by decide)
  have e7 := get_setField_ne j "ml_approaches" (Json.arr []) "doi" (by decide)
  have g1 := fun p =>
    checkOpt_setField_ne j "ml_approaches" (Json.arr []) "study_id" p (by decide)
  have g2 := fun p =>
    checkOpt_setField_ne j "ml_approaches" (Json.arr []) "title" p (by decide)
  have g3 := fun p =>
    checkOpt_setField_ne j "ml_approaches" (Json.arr []) "authors" p (by decide)
  have g4 := fun p =>
    checkOpt_setField_ne j "ml_approaches" (Json.arr []) "ml_problem_type" p (by decide)
  have g5 := fun p =>
    checkOpt_setField_ne j "ml_approaches" (Json.arr []) "problem" p (by decide)
  have g6 := fun p =>
    checkOpt_setField_ne j "ml_approaches" (Json.arr []) "publication_type" p (by decide)
  have g7 := fun p =>
    checkOpt_setField_ne j "ml_approaches" (Json.arr []) "journal" p (by decide)
  have g8 := fun p =>
    checkOpt_setField_ne j "ml_approaches" (Json.arr []) "year" p (by decide)
  have g9 := fun p =>
    checkOpt_setField_ne j "ml_approaches" (Json.arr []) "doi" p (by decide)
  have g10 := fun p =>
    checkOpt_setField_ne j "ml_approaches" (Json.arr []) "abstract" p (by decide)
  have g11 := fun p =>
    checkOpt_setField_ne j "ml_approaches" (Json.arr []) "source_dataset" p (by decide)
  have g12 := fun p =>
    checkOpt_setField_ne j "ml_approaches" (Json.arr []) "target_dataset" p (by decide)
  simp only [validateStudy, Bool.and_eq_true] at h ⊢
  simp only [e0, e1, e2, e3, e4, e5, e6, e7, eml, g1, g2, g3, g4, g5, g6, g7, g8, g9,
    g10, g11, g12, gml, Option.isSome_some, eq_self_iff_true, true_and, and_true]
  tauto

/-- Claim C3 (amended, witness): emptying `recGood`'s approaches keeps it
valid. -/
theorem empty_ml_preserves_validity_witness :
    validateStudy (recGood.setField "ml_approaches" (Json.arr [])) = true :=
  empty_ml_preserves_validity recGood rfl
